import Mathlib

/-!
Verification of the retrieval pipeline of the bajaj-hackathon-llm-system
repository: the chunker (`app/services/document_loader.py`), the vector
store (`app/services/vector_store.py`) and the clause matcher
(`app/services/clause_matcher.py`), shallowly embedded in Lean 4.

Python strings are modelled as `List Char`; Python `int` indices are
modelled as `Int` with Python's slice-normalisation semantics made
explicit; the external embedding model and the similarity computation
are parameters of the embedded functions, returning `Except` to model
the possibility of a raised exception.
-/

/-- A Python string, modelled as its list of characters. -/
abbrev PyStr := List Char

/-- A Python dict used as chunk metadata, modelled as an association list.
The empty dict `{}` is `[]`. -/
abbrev Meta := List (PyStr × PyStr)

/-- An embedding vector.  The numeric values themselves come from the
external sentence-transformer model; we model the entries as rationals. -/
abbrev Emb := List ℚ

/-- An exception raised by a collaborator (embedding model, similarity
computation, or the vector store's search), carrying its message. -/
abbrev EmbErr := String

/-! ### Python primitive semantics -/

/-- Whitespace characters removed by Python's `str.strip()` (ASCII range). -/
def isPySpace (c : Char) : Bool :=
  c = ' ' || c = '\t' || c = '\n' || c = '\r' || c = '\x0b' || c = '\x0c'

/-- Python `str.strip()`: drop leading and trailing whitespace. -/
def pyStrip (l : PyStr) : PyStr :=
  ((l.dropWhile isPySpace).reverse.dropWhile isPySpace).reverse

/-- Normalise a Python slice index against a sequence of length `n`:
negative indices count from the end, and the result is clamped to
`[0, n]`. -/
def pyIdx (n : Nat) (i : Int) : Nat :=
  (min (if i < 0 then (n : Int) + i else i) (n : Int)).toNat

/-- Python slicing `l[a:b]` with step 1. -/
def pySlice (l : PyStr) (a b : Int) : PyStr :=
  (l.take (pyIdx l.length b)).drop (pyIdx l.length a)

/-- Python `text.rfind(c, a, b)` for a single-character needle: the
highest index `j` with `a' ≤ j < b'` (after slice normalisation) such
that `l[j] = c`, or `-1` when there is none. -/
def pyRfindChar (l : PyStr) (c : Char) (a b : Int) : Int :=
  let a' := pyIdx l.length a
  let b' := pyIdx l.length b
  match ((List.range' a' (b' - a')).filter (fun j => l.getD j ' ' = c)).getLast? with
  | some j => (j : Int)
  | none => -1

/-! ### Chunker (`DocumentLoader.chunk_text`) -/

/-- The `while start < len(text)` loop of `DocumentLoader.chunk_text`,
with explicit fuel: `none` means the fuel ran out before the loop
finished (in particular, a loop that never terminates yields `none` for
every fuel value). -/
def chunkLoop (text : PyStr) (chunkSize overlap : Int) :
    Nat → Int → List PyStr → Option (List PyStr)
  | 0, _, _ => none
  | fuel + 1, start, chunks =>
    if start < (text.length : Int) then
      let rawEnd := start + chunkSize
      let endIdx :=
        if rawEnd < (text.length : Int) then
          let lastPeriod := pyRfindChar text '.' start rawEnd
          if lastPeriod > start then lastPeriod + 1 else rawEnd
        else rawEnd
      let chunk := pyStrip (pySlice text start endIdx)
      let chunks' := if chunk.isEmpty then chunks else chunks ++ [chunk]
      if (text.length : Int) ≤ endIdx then some chunks'
      else chunkLoop text chunkSize overlap fuel (endIdx - overlap) chunks'
    else some chunks

/-- `DocumentLoader.chunk_text(text, chunk_size, overlap)`.  The fuel
bounds the number of loop iterations; the function under-approximates
the Python function only by returning `none` when the fuel is
insufficient. -/
def chunkText (fuel : Nat) (text : PyStr) (chunkSize overlap : Int) :
    Option (List PyStr) :=
  if (text.length : Int) ≤ chunkSize then some [text]
  else chunkLoop text chunkSize overlap fuel 0 []

/-- `chunk_text` diverges on an input when no amount of fuel makes the
loop finish: the Python call never returns (and hence never raises). -/
def chunkDiverges (text : PyStr) (chunkSize overlap : Int) : Prop :=
  ∀ fuel, chunkText fuel text chunkSize overlap = none

/-! ### Vector store (`VectorStore`) -/

/-- The mutable state of a `VectorStore` instance: `self.embeddings`
(`None` until the first successful `add_documents`), `self.texts` and
`self.metadata`. -/
structure VectorStore where
  embeddings : Option (List Emb)
  texts : List PyStr
  metadata : List Meta
deriving DecidableEq

/-- The state of a freshly constructed `VectorStore`. -/
def VectorStore.init : VectorStore := ⟨none, [], []⟩

/-- Python truthiness of the optional `metadata` argument:
`None` and the empty list are falsy. -/
def metaTruthy : Option (List Meta) → Bool
  | none => false
  | some l => !l.isEmpty

/-- `VectorStore.add_documents(texts, metadata)`.  The embedding model's
`encode` is a parameter returning `Except` (it may raise).  A raised
exception is re-raised by the Python code after logging; the `error`
case carries the store state at the moment of the raise. -/
def addDocuments (encode : List PyStr → Except EmbErr (List Emb))
    (vs : VectorStore) (texts : List PyStr) (metadata : Option (List Meta)) :
    Except (EmbErr × VectorStore) VectorStore :=
  if texts.isEmpty then .ok vs
  else
    match encode texts with
    | .error e => .error (e, vs)
    | .ok newEmbeddings =>
      .ok { embeddings :=
              match vs.embeddings with
              | none => some newEmbeddings
              | some old => some (old ++ newEmbeddings)
            texts := vs.texts ++ texts
            metadata :=
              if metaTruthy metadata then vs.metadata ++ metadata.getD []
              else vs.metadata ++ List.replicate texts.length [] }

/-- Run a sequence of `add_documents` calls, propagating the first
raised exception. -/
def runAdds (encode : List PyStr → Except EmbErr (List Emb)) :
    VectorStore → List (List PyStr × Option (List Meta)) →
    Except (EmbErr × VectorStore) VectorStore
  | vs, [] => .ok vs
  | vs, (ts, md) :: rest =>
    match addDocuments encode vs ts md with
    | .error e => .error e
    | .ok vs' => runAdds encode vs' rest

/-- Number of rows of the embedding matrix (0 when it is still `None`). -/
def VectorStore.embRows (vs : VectorStore) : Nat :=
  (vs.embeddings.getD []).length

/-- The index invariant: the text list, the embedding matrix and the
metadata list all have the same length. -/
def VectorStore.wellFormed (vs : VectorStore) : Prop :=
  vs.embRows = vs.texts.length ∧ vs.metadata.length = vs.texts.length

instance (vs : VectorStore) : Decidable vs.wellFormed :=
  inferInstanceAs (Decidable (_ ∧ _))

/-- A call's `metadata` argument is benign when it is omitted, empty, or
exactly as long as `texts`. -/
def metaOk (texts : List PyStr) : Option (List Meta) → Prop
  | none => True
  | some l => l = [] ∨ l.length = texts.length

/-- Map a fallible function over a list, stopping at the first raised
exception (the collaborating similarity computation applied row by row). -/
def mapExcept (f : α → Except EmbErr β) : List α → Except EmbErr (List β)
  | [] => .ok []
  | a :: as =>
    match f a with
    | .error e => .error e
    | .ok b =>
      match mapExcept f as with
      | .error e => .error e
      | .ok bs => .ok (b :: bs)

/-- The comparison key used by `np.argsort(similarities)`: compare two
row indices by their similarity score. -/
def keyLe (sims : List ℚ) (i j : Nat) : Prop :=
  sims.getD i 0 ≤ sims.getD j 0

instance (sims : List ℚ) : DecidableRel (keyLe sims) :=
  fun _ _ => inferInstanceAs (Decidable (_ ≤ _))

instance (sims : List ℚ) : IsTotal Nat (keyLe sims) :=
  ⟨fun _ _ => le_total _ _⟩

instance (sims : List ℚ) : IsTrans Nat (keyLe sims) :=
  ⟨fun _ _ _ => le_trans⟩

/-- `np.argsort(similarities)`: the indices `0, …, n-1` sorted so that
the corresponding scores are ascending.  (`np.argsort`'s tie order is
unspecified; any deterministic comparison sort realises the contract.) -/
def argsortAsc (sims : List ℚ) : List Nat :=
  List.insertionSort (keyLe sims) (List.range sims.length)

/-- `VectorStore.search(query, k)`.  `encode` embeds the query and `sim`
is the cosine-similarity computation against one stored row; both are
collaborator calls that may raise, and any raise inside the `try` block
is caught and turned into the empty result list. -/
def search (encode : PyStr → Except EmbErr Emb) (sim : Emb → Emb → Except EmbErr ℚ)
    (vs : VectorStore) (query : PyStr) (k : Nat) : List (PyStr × ℚ × Meta) :=
  match vs.embeddings with
  | none => []
  | some embs =>
    if vs.texts.length = 0 then []
    else
      match (encode query).bind (fun q => mapExcept (sim q) embs) with
      | .error _ => []
      | .ok sims =>
        let topIndices := (argsortAsc sims).reverse.take k
        topIndices.filterMap (fun idx =>
          if idx < vs.texts.length then
            some (vs.texts.getD idx [], sims.getD idx 0,
                  if idx < vs.metadata.length then vs.metadata.getD idx [] else [])
          else none)

/-! ### Clause matcher (`ClauseMatcher`) -/

/-- Python `text.lower()` (ASCII case folding, as used by the keyword
rules, whose keywords are all ASCII). -/
def lowerStr (s : PyStr) : PyStr := s.map Char.toLower

/-- `any(word in text_lower for word in words)`: some word of `words`
occurs as a substring of `t`. -/
def containsAny (t : PyStr) (words : List PyStr) : Bool :=
  words.any (fun w => decide (w <:+: t))

/-- `ClauseMatcher._classify_clause(text)`: the if/elif keyword chain
over the lower-cased text. -/
def classifyClause (text : PyStr) : String :=
  let textLower := lowerStr text
  if containsAny textLower ["cover".toList, "coverage".toList, "benefit".toList] then
    "coverage"
  else if containsAny textLower ["waiting".toList, "period".toList, "wait".toList] then
    "waiting_period"
  else if containsAny textLower ["premium".toList, "payment".toList, "due".toList] then
    "premium"
  else if containsAny textLower ["exclude".toList, "exclusion".toList, "not covered".toList] then
    "exclusion"
  else if containsAny textLower ["amount".toList, "sum".toList, "limit".toList] then
    "amount"
  else
    "general"

/-- Modelled from the spec: the ordered keyword rule table of §4.3, with
`general` as the fall-through default. -/
def ruleTable : List (List PyStr × String) :=
  [(["cover".toList, "coverage".toList, "benefit".toList], "coverage"),
   (["waiting".toList, "period".toList, "wait".toList], "waiting_period"),
   (["premium".toList, "payment".toList, "due".toList], "premium"),
   (["exclude".toList, "exclusion".toList, "not covered".toList], "exclusion"),
   (["amount".toList, "sum".toList, "limit".toList], "amount")]

/-- Modelled from the spec: evaluate an ordered rule table on a
lower-cased text, first match wins, defaulting to `general`. -/
def classifyFirstMatch : List (List PyStr × String) → PyStr → String
  | [], _ => "general"
  | (words, label) :: rest, t =>
    if containsAny t words then label else classifyFirstMatch rest t

/-! #### The three `re.findall` pattern scans of `_extract_key_phrases` -/

/-- Length of the maximal digit run at the head of `l` (Python `\d+`,
ASCII scope). -/
def digitsLen (l : PyStr) : Nat := (l.takeWhile Char.isDigit).length

/-- Length of the maximal whitespace run at the head of `l` (`\s*`). -/
def spacesLen (l : PyStr) : Nat := (l.takeWhile isPySpace).length

/-- The currency-prefix alternation of the source's `money_pattern`
matched at the head of `l`: the length it consumes, if it matches.
The third alternative is, literally, the three-character sequence
U+00E2 U+201A U+00B9 (`â‚¹`) stored in the source file (bytes
`c3 a2 e2 80 9a c2 b9`) — a double-encoding artifact of the rupee
sign — not the rupee sign U+20B9 itself. -/
def moneyPrefixLen (l : PyStr) : Option Nat :=
  if "Rs".toList <+: l then some (if "Rs.".toList <+: l then 3 else 2)
  else if "INR".toList <+: l then some 3
  else if ['\u00E2', '\u201A', '\u00B9'] <+: l then some 3
  else none

/-- The source's money pattern
`(?:Rs\.?|INR|â‚¹)\s*[\d,]+(?:\.\d{2})?` matched at the head of `l`:
the length of the (greedy) match, if any. -/
def matchMoneyAt (l : PyStr) : Option Nat :=
  match moneyPrefixLen l with
  | none => none
  | some p =>
    let afterPre := l.drop p
    let s := spacesLen afterPre
    let afterSp := afterPre.drop s
    let d := (afterSp.takeWhile (fun c => c.isDigit || c = ',')).length
    if d = 0 then none
    else
      let extra :=
        match afterSp.drop d with
        | '.' :: a :: b :: _ => if a.isDigit && b.isDigit then 3 else 0
        | _ => 0
      some (p + s + d + extra)

/-- Modelled from the spec: the intended currency-prefix alternation
`(?:Rs\.?|INR|₹)` with the real rupee sign U+20B9, per the spec's
"common Indian currency notations (Rs., INR, ₹ prefix)".  The source's
pattern differs: its third alternative is the mojibake sequence in
`moneyPrefixLen`. -/
def moneyPrefixLenSpec (l : PyStr) : Option Nat :=
  if "Rs".toList <+: l then some (if "Rs.".toList <+: l then 3 else 2)
  else if "INR".toList <+: l then some 3
  else if ['₹'] <+: l then some 1
  else none

/-- Modelled from the spec: the money pattern with the real rupee sign
as its third prefix alternative, otherwise identical to `matchMoneyAt`. -/
def matchMoneySpecAt (l : PyStr) : Option Nat :=
  match moneyPrefixLenSpec l with
  | none => none
  | some p =>
    let afterPre := l.drop p
    let s := spacesLen afterPre
    let afterSp := afterPre.drop s
    let d := (afterSp.takeWhile (fun c => c.isDigit || c = ',')).length
    if d = 0 then none
    else
      let extra :=
        match afterSp.drop d with
        | '.' :: a :: b :: _ => if a.isDigit && b.isDigit then 3 else 0
        | _ => 0
      some (p + s + d + extra)

/-- The unit alternation `(?:days?|months?|years?)` matched at the head
of `l`: the length it consumes (greedy optional `s`), if it matches. -/
def timeUnitLen (l : PyStr) : Option Nat :=
  if "day".toList <+: l then some (if "days".toList <+: l then 4 else 3)
  else if "month".toList <+: l then some (if "months".toList <+: l then 6 else 5)
  else if "year".toList <+: l then some (if "years".toList <+: l then 5 else 4)
  else none

/-- The time pattern `\d+\s*(?:days?|months?|years?)` matched at the
head of `l`. -/
def matchTimeAt (l : PyStr) : Option Nat :=
  let d := digitsLen l
  if d = 0 then none
  else
    let afterD := l.drop d
    let s := spacesLen afterD
    match timeUnitLen (afterD.drop s) with
    | none => none
    | some u => some (d + s + u)

/-- The percentage pattern `\d+(?:\.\d+)?%` matched at the head of `l`. -/
def matchPercentAt (l : PyStr) : Option Nat :=
  let d := digitsLen l
  if d = 0 then none
  else
    match l.drop d with
    | '%' :: _ => some (d + 1)
    | '.' :: afterDot =>
      let d2 := digitsLen afterDot
      if d2 = 0 then none
      else
        match afterDot.drop d2 with
        | '%' :: _ => some (d + 1 + d2 + 1)
        | _ => none
    | _ => none

/-- `re.findall` for a pattern given by its match-at-a-position
function: scan left to right, collecting non-overlapping matches and
resuming after each match, advancing one character after a failure.
The fuel is the remaining length, plenty since every step consumes at
least one character. -/
def pyFindAllAux (matchAt : PyStr → Option Nat) : Nat → PyStr → List PyStr
  | 0, _ => []
  | _, [] => []
  | fuel + 1, c :: rest =>
    match matchAt (c :: rest) with
    | some (n + 1) =>
      (c :: rest).take (n + 1) :: pyFindAllAux matchAt fuel ((c :: rest).drop (n + 1))
    | _ => pyFindAllAux matchAt fuel rest

/-- `re.findall(pattern, text)` for the three key-phrase patterns (none
of which can match the empty string). -/
def pyFindAll (matchAt : PyStr → Option Nat) (l : PyStr) : List PyStr :=
  pyFindAllAux matchAt l.length l

/-- `ClauseMatcher._extract_key_phrases(text)`: the three scans run on
the raw text, concatenated in source order (money, time, percent). -/
def extractKeyPhrases (text : PyStr) : List PyStr :=
  pyFindAll matchMoneyAt text ++ pyFindAll matchTimeAt text ++ pyFindAll matchPercentAt text

/-- The structured query handed to `find_relevant_clauses`; a key absent
from the Python dict is the empty list. -/
structure ParsedQuery where
  keywords : List PyStr
  entities : List PyStr

/-- The search string built by `find_relevant_clauses`: up to 10
keywords, then all entities, joined by single spaces, with the literal
fallback phrase when no terms are available. -/
def buildSearchQuery (pq : ParsedQuery) : PyStr :=
  let searchTerms :=
    (if !pq.keywords.isEmpty then pq.keywords.take 10 else []) ++
    (if !pq.entities.isEmpty then pq.entities else [])
  if !searchTerms.isEmpty then List.intercalate [' '] searchTerms
  else "general policy information".toList

/-- One result record produced by `find_relevant_clauses`. -/
structure ClauseRecord where
  text : PyStr
  relevance_score : ℚ
  metadata : Meta
  clause_type : String
  key_phrases : List PyStr
deriving DecidableEq

/-- `ClauseMatcher.find_relevant_clauses(parsed_query, k)`.  The vector
store it delegates to is a parameter `searchFn` which may raise; any
raise inside the `try` block is caught and turned into `[]`. -/
def findRelevantClauses
    (searchFn : PyStr → Nat → Except EmbErr (List (PyStr × ℚ × Meta)))
    (pq : ParsedQuery) (k : Nat) : List ClauseRecord :=
  match searchFn (buildSearchQuery pq) k with
  | .error _ => []
  | .ok results =>
    results.map (fun r =>
      { text := r.1, relevance_score := r.2.1, metadata := r.2.2,
        clause_type := classifyClause r.1, key_phrases := extractKeyPhrases r.1 })

/-! ### Helper lemmas -/

/-- A successful `mapExcept` preserves the list length. -/
theorem mapExcept_ok_length {f : α → Except EmbErr β} :
    ∀ {l : List α} {l' : List β}, mapExcept f l = .ok l' → l'.length = l.length := by
  intro l
  induction l with
  | nil => intro l' h; cases h; rfl
  | cons a as ih =>
    intro l' h
    unfold mapExcept at h
    cases hfa : f a with
    | error e => rw [hfa] at h; cases h
    | ok b =>
      rw [hfa] at h
      cases hrest : mapExcept f as with
      | error e => rw [hrest] at h; cases h
      | ok bs =>
        rw [hrest] at h
        cases h
        simp [ih hrest]

/-- `filterMap` collapses to `map` when the function succeeds on every
member of the list. -/
theorem filterMap_eq_map_of_mem {f : α → Option β} {g : α → β} :
    ∀ {l : List α}, (∀ x ∈ l, f x = some (g x)) → l.filterMap f = l.map g := by
  intro l
  induction l with
  | nil => intro _; rfl
  | cons a as ih =>
    intro h
    rw [List.filterMap_cons, h a (List.mem_cons_self a as), List.map_cons,
      ih (fun x hx => h x (List.mem_cons_of_mem a hx))]

/-- If some listed keyword occurs in the text, `containsAny` is true. -/
theorem containsAny_of_mem {w : PyStr} {words : List PyStr} {t : PyStr}
    (hw : w ∈ words) (h : w <:+: t) : containsAny t words = true := by
  simp only [containsAny, List.any_eq_true, decide_eq_true_eq]
  exact ⟨w, hw, h⟩

/-- The if/elif chain of `_classify_clause` is exactly the first-match
evaluation of the spec's ordered rule table on the lower-cased text. -/
theorem classifyClause_eq_table (t : PyStr) :
    classifyClause t = classifyFirstMatch ruleTable (lowerStr t) := rfl

/-! ### Claims about the chunker -/

/-- C2: the claim states that for every non-empty text longer than
`chunk_size` and every overlap, including `overlap >= chunk_size`, the
chunking loop terminates because the start index strictly advances.
The code violates this: on the 10-character text `"aaaaaaaaaa"` with
`chunk_size = 3` and `overlap = 3`, the start index is `0` on every
iteration (`end = 3`, `start = end - overlap = 0`) and the loop never
terminates, whatever fuel it is given. -/
theorem chunk_overlap_ge_size_diverges :
    chunkDiverges (List.replicate 10 'a') 3 3 := by
  have key : ∀ fuel chunks,
      chunkLoop (List.replicate 10 'a') 3 3 fuel 0 chunks = none := by
    intro fuel
    induction fuel with
    | zero => intro chunks; rfl
    | succ n ih =>
      intro chunks
      have step : chunkLoop (List.replicate 10 'a') 3 3 (n + 1) 0 chunks
          = chunkLoop (List.replicate 10 'a') 3 3 n 0
              (chunks ++ [List.replicate 3 'a']) := rfl
      rw [step]
      exact ih _
  intro fuel
  unfold chunkText
  rw [if_neg (by decide)]
  exact key fuel []

/-- C7: the claim states that `chunk_size <= 0` makes `chunk_text` fail
fast.  The code performs no validation at all: on the text `"ab"` with
`chunk_size = 0` and `overlap = 0` no exception is raised — instead the
loop keeps `start = 0` forever (`end = 0`, `start = end - overlap = 0`)
and never returns, whatever fuel it is given. -/
theorem chunk_size_zero_no_failfast :
    chunkDiverges ['a', 'b'] 0 0 := by
  have key : ∀ fuel chunks,
      chunkLoop ['a', 'b'] 0 0 fuel 0 chunks = none := by
    intro fuel
    induction fuel with
    | zero => intro chunks; rfl
    | succ n ih =>
      intro chunks
      have step : chunkLoop ['a', 'b'] 0 0 (n + 1) 0 chunks
          = chunkLoop ['a', 'b'] 0 0 n 0 chunks := rfl
      rw [step]
      exact ih chunks
  intro fuel
  unfold chunkText
  rw [if_neg (by decide)]
  exact key fuel []

/-- C6 (counterexample): the claim states that no chunk is produced for
input that is empty after trimming.  On the whitespace-only text
`"   "` (which is empty after trimming and no longer than the default
`chunk_size = 1000`), the code returns `["   "]`: exactly one chunk is
produced, and it is not trimmed. -/
theorem chunk_empty_input_counterexample :
    (chunkText 1 (List.replicate 3 ' ') 1000 200).map List.length = some 1 := by
  decide

/-- C6 (amended): for every text with `len(text) <= chunk_size` the
chunk operation returns the one-element sequence `[text]` unchanged —
including input that is empty (or whitespace-only) after trimming,
which therefore yields one (possibly empty) chunk rather than none. -/
theorem chunk_short_text_identity (fuel : Nat) (text : PyStr)
    (chunkSize overlap : Int) (h : (text.length : Int) ≤ chunkSize) :
    chunkText fuel text chunkSize overlap = some [text] := by
  unfold chunkText
  exact if_pos h

/-- Witness for `chunk_short_text_identity` at `text = "hi"`,
`chunk_size = 1000`, `overlap = 200`. -/
theorem chunk_short_text_identity_witness :
    ((("hi".toList : PyStr).length : Int) ≤ 1000) ∧
    chunkText 1 "hi".toList 1000 200 = some ["hi".toList] :=
  ⟨by decide, chunk_short_text_identity 1 "hi".toList 1000 200 (by decide)⟩

/-! ### Claims about the vector store -/

/-- A trivially succeeding embedding model: one fixed vector per text. -/
def encodeConst : List PyStr → Except EmbErr (List Emb) :=
  fun ts => .ok (ts.map (fun _ => [1]))

/-- C1 (counterexample): the claim states that when `metadata` is
shorter than `texts` the missing entries default to empty mappings, so
`len(texts) == len(metadata)` always holds after `add`.  The code pads
only when `metadata` is `None` or empty: calling `add_documents` on a
fresh store with two texts and a one-element metadata list leaves
`len(texts) = 2` but `len(metadata) = 1`. -/
theorem add_short_metadata_counterexample :
    (addDocuments encodeConst VectorStore.init ["a".toList, "b".toList]
        (some [[]])).map (fun vs => (vs.texts.length, vs.metadata.length))
      = .ok (2, 1) := rfl

/-- One `add_documents` call preserves the index invariant provided the
embedding model is order/length-preserving and the call's metadata is
omitted, empty or exactly as long as its texts. -/
theorem addDocuments_wellFormed {encode : List PyStr → Except EmbErr (List Emb)}
    (hlen : ∀ ts embs, encode ts = .ok embs → embs.length = ts.length)
    {vs vs' : VectorStore} {ts : List PyStr} {md : Option (List Meta)}
    (hmd : metaOk ts md) (hwf : vs.wellFormed)
    (h : addDocuments encode vs ts md = .ok vs') : vs'.wellFormed := by
  unfold addDocuments at h
  by_cases hts : ts.isEmpty
  · rw [if_pos hts] at h
    cases h
    exact hwf
  · rw [if_neg hts] at h
    cases henc : encode ts with
    | error e => rw [henc] at h; cases h
    | ok embs =>
      rw [henc] at h
      cases h
      obtain ⟨hrows, hmeta⟩ := hwf
      have hembs : embs.length = ts.length := hlen ts embs henc
      constructor
      · cases hvse : vs.embeddings with
        | none =>
          have h0 : vs.texts.length = 0 := by
            simpa [VectorStore.embRows, hvse] using hrows.symm
          show embs.length = (vs.texts ++ ts).length
          rw [List.length_append]
          omega
        | some old =>
          have h0 : old.length = vs.texts.length := by
            simpa [VectorStore.embRows, hvse] using hrows
          show (old ++ embs).length = (vs.texts ++ ts).length
          rw [List.length_append, List.length_append]
          omega
      · show (if metaTruthy md = true then vs.metadata ++ md.getD []
              else vs.metadata ++ List.replicate ts.length []).length
            = (vs.texts ++ ts).length
        cases md with
        | none =>
          rw [if_neg (by simp [metaTruthy])]
          simp [List.length_append, List.length_replicate, hmeta]
        | some l =>
          by_cases hl : l.isEmpty
          · rw [if_neg (by simp [metaTruthy, hl])]
            simp [List.length_append, List.length_replicate, hmeta]
          · rcases hmd with hnil | hlen'
            · rw [hnil] at hl; simp at hl
            · rw [if_pos (by simp [metaTruthy, hl])]
              simp [List.length_append, Option.getD_some, hmeta, hlen']

/-- C1 (amended): entries default to an empty mapping only when the
`metadata` argument is omitted or empty (Python truthiness); a
non-empty metadata list is appended as-is, without padding.  After any
sequence of successful `add` calls whose metadata arguments are each
omitted, empty or exactly as long as their texts,
`len(texts) == len(embeddings) == len(metadata)` holds on the index. -/
theorem add_metadata_default_and_invariant :
    (∀ (encode : List PyStr → Except EmbErr (List Emb)) vs ts md embs,
       metaTruthy md = false → ts.isEmpty = false → encode ts = .ok embs →
       (addDocuments encode vs ts md).map VectorStore.metadata
         = .ok (vs.metadata ++ List.replicate ts.length [])) ∧
    (∀ (encode : List PyStr → Except EmbErr (List Emb)),
       (∀ ts embs, encode ts = .ok embs → embs.length = ts.length) →
       ∀ calls : List (List PyStr × Option (List Meta)),
       (∀ p ∈ calls, metaOk p.1 p.2) →
       ∀ vs vs' : VectorStore, vs.wellFormed →
       runAdds encode vs calls = .ok vs' → vs'.wellFormed) := by
  constructor
  · intro encode vs ts md embs hmd hts henc
    unfold addDocuments
    rw [hts, henc, hmd]
    rfl
  · intro encode hlen calls
    induction calls with
    | nil =>
      intro _ vs vs' hwf hrun
      unfold runAdds at hrun
      cases hrun
      exact hwf
    | cons p rest ih =>
      obtain ⟨ts, md⟩ := p
      intro hcalls vs vs' hwf hrun
      unfold runAdds at hrun
      cases hadd : addDocuments encode vs ts md with
      | error e => rw [hadd] at hrun; cases hrun
      | ok vsm =>
        rw [hadd] at hrun
        exact ih (fun q hq => hcalls q (List.mem_cons_of_mem _ hq)) vsm vs'
          (addDocuments_wellFormed hlen (hcalls (ts, md) (List.mem_cons_self _ _)) hwf hadd)
          hrun

/-- A two-call sequence used to witness the amended C1 invariant. -/
def c1Calls : List (List PyStr × Option (List Meta)) :=
  [(["a".toList, "b".toList], none), (["c".toList], some [[]])]

/-- The store produced by running `c1Calls` on a fresh store. -/
def c1Final : VectorStore :=
  match runAdds encodeConst VectorStore.init c1Calls with
  | .ok vs => vs
  | .error _ => VectorStore.init

/-- Witness for `add_metadata_default_and_invariant`: a concrete
defaulting call and a concrete two-call sequence keeping the store
well-formed. -/
theorem add_metadata_default_and_invariant_witness :
    ((addDocuments encodeConst VectorStore.init ["a".toList] none).map
        VectorStore.metadata
      = .ok (VectorStore.init.metadata ++
          List.replicate (["a".toList] : List PyStr).length [])) ∧
    c1Final.wellFormed := by
  constructor
  · exact add_metadata_default_and_invariant.1 encodeConst VectorStore.init
      ["a".toList] none [[1]] rfl rfl rfl
  · refine add_metadata_default_and_invariant.2 encodeConst
      (fun ts embs h => by injection h with h'; rw [← h']; simp)
      c1Calls ?_ VectorStore.init c1Final (by constructor <;> rfl) rfl
    intro p hp
    simp only [c1Calls, List.mem_cons, List.not_mem_nil, or_false] at hp
    rcases hp with rfl | rfl
    · trivial
    · right; rfl

/-- An embedding model that always raises. -/
def encodeFail : List PyStr → Except EmbErr (List Emb) :=
  fun _ => .error "model failure"

/-- C8: if the embedding call inside `add_documents` raises on a
non-empty text list, the exception propagates to the caller and the
store state carried at the raise is exactly the state before the call:
a failed ingestion never leaves a partially-populated index. -/
theorem add_propagates_embed_failure
    (encode : List PyStr → Except EmbErr (List Emb)) (vs : VectorStore)
    (ts : List PyStr) (md : Option (List Meta)) (e : EmbErr)
    (hts : ts.isEmpty = false) (henc : encode ts = .error e) :
    addDocuments encode vs ts md = .error (e, vs) := by
  unfold addDocuments
  rw [hts, henc]
  rfl

/-- Witness for `add_propagates_embed_failure` with a concrete failing
model on a fresh store. -/
theorem add_propagates_embed_failure_witness :
    ((["a".toList] : List PyStr).isEmpty = false) ∧
    encodeFail ["a".toList] = .error "model failure" ∧
    addDocuments encodeFail VectorStore.init ["a".toList] none
      = .error ("model failure", VectorStore.init) :=
  ⟨rfl, rfl, add_propagates_embed_failure encodeFail VectorStore.init
      ["a".toList] none "model failure" rfl rfl⟩

/-- Reduction of `search` once the embedding matrix is known to be
populated. -/
theorem search_some (encode : PyStr → Except EmbErr Emb)
    (sim : Emb → Emb → Except EmbErr ℚ) (vs : VectorStore) (query : PyStr)
    (k : Nat) (embs : List Emb) (hemb : vs.embeddings = some embs) :
    search encode sim vs query k =
      (if vs.texts.length = 0 then []
       else
         match (encode query).bind (fun q => mapExcept (sim q) embs) with
         | .error _ => []
         | .ok sims =>
           ((argsortAsc sims).reverse.take k).filterMap (fun idx =>
             if idx < vs.texts.length then
               some (vs.texts.getD idx [], sims.getD idx 0,
                     if idx < vs.metadata.length then vs.metadata.getD idx [] else [])
             else none)) := by
  unfold search
  rw [hemb]

/-- C9: per-question retrieval failures never propagate.  If embedding
the query raises, or computing the similarities raises, `search`
returns the empty sequence instead of raising; and if the underlying
search raises inside `find_relevant_clauses`, the matcher returns the
empty sequence instead of raising. -/
theorem per_question_failures_degrade :
    (∀ encode sim (vs : VectorStore) query k e, encode query = .error e →
       search encode sim vs query k = []) ∧
    (∀ encode sim (vs : VectorStore) query k embs q e,
       vs.embeddings = some embs → encode query = .ok q →
       mapExcept (sim q) embs = .error e →
       search encode sim vs query k = []) ∧
    (∀ searchFn (pq : ParsedQuery) k e,
       searchFn (buildSearchQuery pq) k = .error e →
       findRelevantClauses searchFn pq k = []) := by
  refine ⟨?_, ?_, ?_⟩
  · intro encode sim vs query k e h
    cases hvs : vs.embeddings with
    | none => unfold search; rw [hvs]
    | some embs =>
      rw [search_some encode sim vs query k embs hvs]
      by_cases h0 : vs.texts.length = 0
      · rw [if_pos h0]
      · rw [if_neg h0, h]
        rfl
  · intro encode sim vs query k embs q e hemb henc hmap
    have hb : (encode query).bind (fun q' => mapExcept (sim q') embs)
        = .error e := by
      rw [henc]
      exact hmap
    rw [search_some encode sim vs query k embs hemb]
    by_cases h0 : vs.texts.length = 0
    · rw [if_pos h0]
    · rw [if_neg h0, hb]
  · intro searchFn pq k e h
    unfold findRelevantClauses
    rw [h]

/-- A query-embedding call that always raises. -/
def encodeQFail : PyStr → Except EmbErr Emb := fun _ => .error "embed failure"

/-- A query-embedding call that always succeeds with the empty vector. -/
def encodeQOk : PyStr → Except EmbErr Emb := fun _ => .ok []

/-- A similarity computation that always raises. -/
def simFail : Emb → Emb → Except EmbErr ℚ := fun _ _ => .error "similarity failure"

/-- A vector-store search that always raises. -/
def searchFnFail : PyStr → Nat → Except EmbErr (List (PyStr × ℚ × Meta)) :=
  fun _ _ => .error "search failure"

/-- A one-entry store used by the witnesses. -/
def vsOne : VectorStore := ⟨some [[1]], [['a']], [[]]⟩

/-- Witness for `per_question_failures_degrade` at concrete failing
collaborators over a one-entry store. -/
theorem per_question_failures_degrade_witness :
    (encodeQFail ['q'] = .error "embed failure" ∧
       search encodeQFail simFail vsOne ['q'] 5 = []) ∧
    (search encodeQOk simFail vsOne ['q'] 5 = []) ∧
    (findRelevantClauses searchFnFail ⟨[], []⟩ 5 = []) :=
  ⟨⟨rfl, per_question_failures_degrade.1 encodeQFail simFail vsOne ['q'] 5
      "embed failure" rfl⟩,
   per_question_failures_degrade.2.1 encodeQOk simFail vsOne ['q'] 5 [[1]] []
      "similarity failure" rfl rfl rfl,
   per_question_failures_degrade.2.2 searchFnFail ⟨[], []⟩ 5 "search failure" rfl⟩

/-- C3: on an index with zero added chunks `search` returns the empty
sequence rather than raising; and whenever the embedding and similarity
computations succeed, `search` returns exactly `min k n` results (at
most `k`, and all `n` stored entries ranked when `k` exceeds `n`),
ordered by descending similarity score — never a lower-scored result
ranked above a higher-scored one. -/
theorem search_topk_ordered :
    (∀ encode sim query k, search encode sim VectorStore.init query k = []) ∧
    (∀ encode sim (vs : VectorStore) query k embs sims,
       vs.embeddings = some embs →
       embs.length = vs.texts.length →
       (encode query).bind (fun q => mapExcept (sim q) embs) = .ok sims →
       (search encode sim vs query k).length = min k vs.texts.length ∧
       List.Pairwise (fun a b : PyStr × ℚ × Meta => b.2.1 ≤ a.2.1)
         (search encode sim vs query k)) := by
  constructor
  · intro encode sim query k
    rfl
  · intro encode sim vs query k embs sims hemb hlen hok
    have hsimslen : sims.length = embs.length := by
      cases hq : encode query with
      | error e =>
        rw [hq] at hok
        simp [Except.bind] at hok
      | ok q =>
        rw [hq] at hok
        have hok' : mapExcept (sim q) embs = .ok sims := hok
        exact mapExcept_ok_length hok'
    by_cases h0 : vs.texts.length = 0
    · rw [search_some encode sim vs query k embs hemb, if_pos h0]
      exact ⟨by simp [h0], List.Pairwise.nil⟩
    · have hn : sims.length = vs.texts.length := by rw [hsimslen, hlen]
      have hmem : ∀ idx ∈ (argsortAsc sims).reverse.take k,
          idx < vs.texts.length := by
        intro idx hidx
        have h1 : idx ∈ (argsortAsc sims).reverse := List.mem_of_mem_take hidx
        have h2 : idx ∈ argsortAsc sims := List.mem_reverse.mp h1
        have h3 : idx ∈ List.range sims.length :=
          (List.perm_insertionSort (keyLe sims)
            (List.range sims.length)).mem_iff.mp h2
        have h4 : idx < sims.length := List.mem_range.mp h3
        omega
      have hsearch : search encode sim vs query k =
          ((argsortAsc sims).reverse.take k).map (fun idx =>
            (vs.texts.getD idx [], sims.getD idx 0,
             if idx < vs.metadata.length then vs.metadata.getD idx [] else [])) := by
        rw [search_some encode sim vs query k embs hemb, if_neg h0, hok]
        exact filterMap_eq_map_of_mem (fun idx hidx => if_pos (hmem idx hidx))
      have hlen2 : (argsortAsc sims).length = sims.length := by
        unfold argsortAsc
        rw [(List.perm_insertionSort (keyLe sims)
          (List.range sims.length)).length_eq, List.length_range]
      constructor
      · rw [hsearch, List.length_map, List.length_take, List.length_reverse,
          hlen2, hn]
      · rw [hsearch]
        refine List.Pairwise.map _ (fun i j hij => hij) ?_
        refine List.Pairwise.sublist (List.take_sublist _ _) ?_
        refine List.pairwise_reverse.mpr ?_
        exact List.sorted_insertionSort (keyLe sims) (List.range sims.length)

/-- A two-entry store used by the top-k witness. -/
def vsTwo : VectorStore := ⟨some [[1], [2]], [['a'], ['b']], [[], []]⟩

/-- A similarity computation returning the head entry of the stored row. -/
def simHead : Emb → Emb → Except EmbErr ℚ := fun _ e => .ok (e.getD 0 0)

/-- Witness for `search_topk_ordered`: the empty fresh store, and a
two-entry store searched with `k = 5 > 2`. -/
theorem search_topk_ordered_witness :
    (search encodeQOk simHead VectorStore.init ['q'] 3 = []) ∧
    ((search encodeQOk simHead vsTwo ['q'] 5).length = min 5 vsTwo.texts.length ∧
     List.Pairwise (fun a b : PyStr × ℚ × Meta => b.2.1 ≤ a.2.1)
       (search encodeQOk simHead vsTwo ['q'] 5)) :=
  ⟨search_topk_ordered.1 encodeQOk simHead ['q'] 3,
   search_topk_ordered.2 encodeQOk simHead vsTwo ['q'] 5 [[1], [2]] [1, 2]
     rfl (by decide) rfl⟩

/-! ### Claims about the clause matcher -/

/-- C4: clause-type classification is a deterministic function of the
lower-cased chunk text (hence case-insensitive), equal to the
first-match evaluation of the fixed priority rule table coverage,
waiting_period, premium, exclusion, amount, general; in particular any
text containing both "coverage" and "exclusion" classifies as
`coverage` because the first rule wins. -/
theorem classify_priority_order :
    (∀ s t : PyStr, lowerStr s = lowerStr t →
       classifyClause s = classifyClause t) ∧
    (∀ t : PyStr, classifyClause t = classifyFirstMatch ruleTable (lowerStr t)) ∧
    (∀ t : PyStr, "coverage".toList <:+: lowerStr t →
       "exclusion".toList <:+: lowerStr t → classifyClause t = "coverage") := by
  refine ⟨?_, fun t => classifyClause_eq_table t, ?_⟩
  · intro s t h
    rw [classifyClause_eq_table, classifyClause_eq_table, h]
  · intro t hcov _
    have hc : containsAny (lowerStr t)
        ["cover".toList, "coverage".toList, "benefit".toList] = true :=
      containsAny_of_mem (by simp) hcov
    unfold classifyClause
    rw [if_pos hc]

/-- Witness for `classify_priority_order`: classification agrees on two
casings of the same text, and a concrete text containing both
"coverage" and "exclusion" classifies as `coverage`. -/
theorem classify_priority_order_witness :
    (classifyClause "COVERAGE Applies!".toList
       = classifyClause "coverage applies!".toList) ∧
    classifyClause "coverage despite exclusion".toList = "coverage" :=
  ⟨classify_priority_order.1 "COVERAGE Applies!".toList
      "coverage applies!".toList (by decide),
   classify_priority_order.2.2 "coverage despite exclusion".toList
      (by decide) (by decide)⟩

/-- C10: any chunk text containing "not covered" (case-insensitively)
also contains "cover", so the highest-priority coverage rule fires
first: the classification is `coverage`, never `exclusion` — the
"not covered" keyword of the exclusion rule is unreachable. -/
theorem not_covered_classifies_coverage (t : PyStr)
    (h : "not covered".toList <:+: lowerStr t) :
    classifyClause t = "coverage" ∧ classifyClause t ≠ "exclusion" := by
  have hcover : "cover".toList <:+: lowerStr t :=
    (show "cover".toList <:+: "not covered".toList by decide).trans h
  have hc : containsAny (lowerStr t)
      ["cover".toList, "coverage".toList, "benefit".toList] = true :=
    containsAny_of_mem (by simp) hcover
  have hcls : classifyClause t = "coverage" := by
    unfold classifyClause
    rw [if_pos hc]
  exact ⟨hcls, by rw [hcls]; decide⟩

/-- Witness for `not_covered_classifies_coverage` at a concrete
"not covered" text. -/
theorem not_covered_classifies_coverage_witness :
    classifyClause "Dental is NOT COVERED here".toList = "coverage" ∧
    classifyClause "Dental is NOT COVERED here".toList ≠ "exclusion" :=
  not_covered_classifies_coverage "Dental is NOT COVERED here".toList (by decide)

/-- C5: the claim describes key-phrase extraction as concatenating, in
order and without deduplication, the matches of a Rs./INR/₹-prefixed
currency pattern, the time-period pattern and the percentage pattern
over the raw (not lower-cased) chunk text.  The code diverges on the
rupee sign: its `money_pattern` literally contains the mojibake
sequence U+00E2 U+201A U+00B9 (`â‚¹`) instead of `₹` (U+20B9), so on
`"₹ 500"` — a currency match for the intended, spec-modelled pattern —
the code extracts no key phrase at all, while the mojibake text
`"â‚¹ 500"` is extracted.  The rest of the claim is as stated:
concatenation in money/time/percent order on the raw text, no
deduplication, and `["30 days"]` on `"grace period is 30 days"`. -/
theorem extract_rupee_mojibake_divergence :
    extractKeyPhrases "₹ 500".toList = [] ∧
    pyFindAll matchMoneySpecAt "₹ 500".toList = ["₹ 500".toList] ∧
    extractKeyPhrases "â‚¹ 500".toList
      = ["â‚¹ 500".toList] ∧
    (∀ t : PyStr, extractKeyPhrases t =
       pyFindAll matchMoneyAt t ++ pyFindAll matchTimeAt t ++
         pyFindAll matchPercentAt t) ∧
    extractKeyPhrases "grace period is 30 days".toList = ["30 days".toList] ∧
    extractKeyPhrases "30 days and 30 days".toList
      = ["30 days".toList, "30 days".toList] ∧
    extractKeyPhrases "INR 5".toList = ["INR 5".toList] ∧
    extractKeyPhrases (lowerStr "INR 5".toList) = [] :=
  ⟨by decide, by decide, by decide, fun _ => rfl, by decide, by decide,
   by decide, by decide⟩
